import Mathlib

/-!
# Folonite-AI: multi-agent task routing / planning and UI-state perception

A shallow embedding, in Lean 4, of the algorithmic core of the Folonite-AI
repository:

* `AgentOrchestrator.createAgentContext`
  (`packages/folonite-agent/src/agent/agents/agent-orchestrator.service.ts`),
* `PlannerAgent.refinePlan` / `shouldReplan`
  (`packages/folonite-agent/src/agent/agents/planner.agent.ts`),
* `MultiAgentProcessor.processTask` / `executeStep`
  (`packages/folonite-agent/src/agent/multi-agent.processor.ts`),
* `AccessibilityService.getUiTree` / `searchElements`
  (`packages/folonited/src/computer-use/accessibility.service.ts`),
* `VisionService.detectStateChanges` / `waitForStabilization`
  (`packages/folonited/src/computer-use/computer-use.service.ts`).

Conventions of the embedding:

* JS numbers used as scores/coordinates become `ℚ`; integral counters and
  ids become `ℕ`; wall-clock instants (`Date.now()`) become `ℤ` supplied by
  explicit clock parameters (each call of `Date.now()` in the source reads
  one supplied sample).
* Async collaborator calls (the terminal/desktop/browser agent executors,
  the accessibility fetch subprocess, the vision element detector) are
  oracle parameters; a collaborator that throws is an `Except.error`.
* JS `Map` becomes an insertion-ordered association list, JS `Set` an
  insertion-ordered duplicate-free list, mirroring JS iteration order.
* Mutable instance fields (`AccessibilityService.cache`,
  `VisionService.previousState`) become explicit state threaded through the
  corresponding functions.
-/

/-! ## JS-semantics helpers -/

/-- JS `x || d` for an optional number in a context where `0` is falsy:
`result.metadata?.tokenEstimate || 100` yields `d` when the field is
absent or zero. -/
def jsOrNat (x : Option ℕ) (d : ℕ) : ℕ :=
  match x with
  | some n => if n = 0 then d else n
  | none => d

/-- JS `arr.slice(-n)`: the last `n` elements (the whole list when it is
shorter than `n`). -/
def sliceLast (n : ℕ) (l : List α) : List α :=
  l.drop (l.length - n)

/-- JS `Set.add` (insertion order, no duplicates). -/
def setAdd (s : List ℕ) (x : ℕ) : List ℕ :=
  if x ∈ s then s else s ++ [x]

/-- JS `Map.set` (replaces in place when the key is present, else appends,
preserving insertion order). -/
def mapSet (m : List (ℕ × β)) (k : ℕ) (v : β) : List (ℕ × β) :=
  if m.any (fun p => p.1 = k) then
    m.map (fun p => if p.1 = k then (k, v) else p)
  else m ++ [(k, v)]

/-- JS `Map.get` (`none` = `undefined`). -/
def mapGet (m : List (ℕ × β)) (k : ℕ) : Option β :=
  (m.find? (fun p => p.1 = k)).map (fun p => p.2)

/-- Is `needle` a prefix of `hay`? (char-by-char, used for JS
`String.startsWith` and as the kernel of `includes`). -/
def listStartsWith : List Char → List Char → Bool
  | _, [] => true
  | [], _ :: _ => false
  | a :: as, b :: bs => a = b && listStartsWith as bs

/-- JS `hay.includes(needle)`: contiguous-substring containment. -/
def listIncludes : List Char → List Char → Bool
  | [], needle => listStartsWith [] needle
  | a :: as, needle => listStartsWith (a :: as) needle || listIncludes as needle

/-! ## Data model: agent types, actions, context
(`agent-orchestrator.service.ts`) -/

/-- The six agent types of `AgentType`. -/
inductive AgentType where
  | planner
  | terminal
  | desktop
  | browser
  | code
  | vision
deriving DecidableEq, Repr

/-- The string used for an agent type in template literals
(`Unknown agent type: ...`). -/
def AgentType.name : AgentType → String
  | .planner => "planner"
  | .terminal => "terminal"
  | .desktop => "desktop"
  | .browser => "browser"
  | .code => "code"
  | .vision => "vision"

/-- `'success' | 'failure' | 'partial'`. -/
inductive ExecResult where
  | success
  | failure
  | partial_
deriving DecidableEq, Repr

/-- `AgentAction`: one history entry. -/
structure AgentAction where
  agent : AgentType
  action : String
  result : ExecResult
  summary : String
  timestamp : ℤ
deriving DecidableEq, Repr

/-- `FileReference`. -/
structure FileReference where
  path : String
  isDirectory : Bool
  size : Option ℕ
  modified : Option ℤ
  contentHash : Option String
deriving DecidableEq, Repr

/-- `AgentContext`: the shared task context. -/
structure AgentContext where
  taskId : String
  goal : String
  history : List AgentAction
  files : List FileReference
  currentDirectory : String
  browserUrl : Option String
  desktopActive : Option Bool
  lastScreenshot : Option String
  accumulatedKnowledge : List String
deriving DecidableEq, Repr

/-! ## AgentOrchestrator.createAgentContext -/

/-- `AgentOrchestrator.isCodeFile`: extension allowlist check.
`path.substring(path.lastIndexOf('.'))` is the suffix from the last dot
(the whole path when there is no dot, since `substring(-1)` clamps to 0). -/
def codeExtensions : List String :=
  [".ts", ".tsx", ".js", ".jsx", ".json",
   ".py", ".rb", ".go", ".rs", ".java",
   ".cpp", ".c", ".h", ".hpp", ".cs",
   ".php", ".swift", ".kt", ".scala",
   ".html", ".css", ".scss", ".sass",
   ".yml", ".yaml", ".toml", ".xml",
   ".sh", ".bash", ".zsh", ".fish",
   ".md", ".markdown"]

/-- Suffix of the char list starting at its last `'.'` (whole list if none). -/
def suffixFromLastDot (cs : List Char) : List Char :=
  match cs with
  | [] => []
  | c :: rest =>
    if ('.' : Char) ∈ rest then suffixFromLastDot rest
    else if c = '.' then c :: rest
    else c :: rest

def isCodeFile (path : String) : Bool :=
  let ext := String.mk ((suffixFromLastDot path.toList).map Char.toLower)
  codeExtensions.contains ext

/-- `AgentOrchestrator.createAgentContext`, in state-passing form: the first
component of the result is the contents of the `fullContext` argument after
the call (a statement of the source that mutated `fullContext` would update
it); the second is the freshly built `optimized` context. Every statement of
the source writes only the local `optimized` object (`filter` and `slice`
allocate fresh arrays), so `fullContext` is threaded through unchanged. -/
def createAgentContextSt (agentType : AgentType) (fullContext : AgentContext) :
    AgentContext × AgentContext :=
  -- base context always included
  let optimized : AgentContext :=
    { taskId := fullContext.taskId
      goal := fullContext.goal
      history := []
      files := []
      currentDirectory := fullContext.currentDirectory
      browserUrl := none
      desktopActive := none
      lastScreenshot := none
      accumulatedKnowledge := sliceLast 5 fullContext.accumulatedKnowledge }
  -- agent-specific filtering
  let optimized :=
    match agentType with
    | .terminal =>
      { optimized with
          history := fullContext.history.filter
            (fun h => h.agent == AgentType.terminal || h.agent == AgentType.code)
          files := sliceLast 10 fullContext.files }
    | .desktop =>
      { optimized with
          history := fullContext.history.filter
            (fun h => h.agent == AgentType.desktop || h.agent == AgentType.vision)
          desktopActive := fullContext.desktopActive
          lastScreenshot := fullContext.lastScreenshot }
    | .browser =>
      { optimized with
          history := fullContext.history.filter (fun h => h.agent == AgentType.browser)
          browserUrl := fullContext.browserUrl }
    | .code =>
      { optimized with
          history := fullContext.history.filter
            (fun h => h.agent == AgentType.code || h.agent == AgentType.terminal)
          files := fullContext.files.filter (fun f => isCodeFile f.path) }
    | .vision =>
      { optimized with
          history := fullContext.history.filter
            (fun h => h.agent == AgentType.vision || h.agent == AgentType.desktop) }
    | .planner =>
      { optimized with
          history := fullContext.history
          files := fullContext.files
          accumulatedKnowledge := fullContext.accumulatedKnowledge }
  -- limit history to last 5 relevant actions
  let optimized := { optimized with history := sliceLast 5 optimized.history }
  (fullContext, optimized)

/-- The derived (second) component alone. -/
def createAgentContext (agentType : AgentType) (fullContext : AgentContext) :
    AgentContext :=
  (createAgentContextSt agentType fullContext).2

/-! ## PlannerAgent: plans, refinePlan, shouldReplan (`planner.agent.ts`) -/

/-- JS `s.substring(0, n)`. -/
def strTake (s : String) (n : ℕ) : String :=
  String.mk (s.toList.take n)

/-- `PlanStep`. -/
structure PlanStep where
  id : ℕ
  agent : AgentType
  instruction : String
  dependsOn : Option (List ℕ)
  expectedOutput : String
  verification : Option String
  maxRetries : Option ℕ
deriving DecidableEq, Repr

/-- `TaskPlan`. -/
structure TaskPlan where
  goal : String
  steps : List PlanStep
  estimatedTokens : ℚ
  estimatedTime : ℚ
  parallelizable : Bool
  verificationCriteria : List String
deriving DecidableEq, Repr

/-- The per-step result record stored by `processTask`
(`{ success, output }`; the optional `metadata` field, read by
`shouldReplan` as `r.metadata?.tokenEstimate`, is represented by the
estimate it carries and is `none` for every record `processTask` builds). -/
structure StepResult where
  success : Bool
  output : String
  metadata : Option ℕ
deriving DecidableEq, Repr

/-- `PlannerAgent.shouldReplan`: true when some recorded failure belongs to
a plan step without `maxRetries` (JS `!step.maxRetries` also treats an
explicit `0` as absent), or when the summed `metadata?.tokenEstimate || 0`
exceeds twice the plan's estimate. -/
def shouldReplan (plan : TaskPlan) (stepResults : List (ℕ × StepResult)) : Bool :=
  stepResults.any (fun p =>
    !p.2.success &&
    (match plan.steps.find? (fun s => s.id == p.1) with
     | some s => s.maxRetries.getD 0 == 0
     | none => false)) ||
  (let actualTokens : ℚ :=
    stepResults.foldl (fun sum p => sum + (match p.2.metadata with
      | some t => (t : ℚ)
      | none => 0)) 0
   decide (actualTokens > plan.estimatedTokens * 2))

/-- The cautionary annotation `refinePlan` appends:
`` (Note: Step ${failedDeps.join(', ')} had issues, proceed with caution)``. -/
def planRefineNote (failedDeps : List ℕ) : String :=
  " (Note: Step " ++ String.intercalate ", " (failedDeps.map toString) ++
    " had issues, proceed with caution)"

/-- The per-remaining-step adjustment inside `refinePlan`: a step whose
declared dependencies include one with a recorded failing result gets the
cautionary note appended to its instruction; otherwise it is returned
unchanged (a step without `dependsOn` has `failedDeps` undefined). -/
def adjustStep (stepResults : List (ℕ × StepResult)) (step : PlanStep) : PlanStep :=
  match step.dependsOn with
  | none => step
  | some ds =>
    let failedDeps := ds.filter (fun dep =>
      match mapGet stepResults dep with
      | some r => !r.success
      | none => false)
    if failedDeps.length > 0 then
      { step with instruction := step.instruction ++ planRefineNote failedDeps }
    else step

/-- `PlannerAgent.refinePlan`: completed steps (in plan order) followed by
the adjusted remaining steps (in plan order). -/
def refinePlan (currentPlan : TaskPlan) (completedSteps : List ℕ)
    (stepResults : List (ℕ × StepResult)) : TaskPlan :=
  let remainingSteps :=
    currentPlan.steps.filter (fun s => !(completedSteps.contains s.id))
  let adjustedSteps := remainingSteps.map (adjustStep stepResults)
  { currentPlan with
      steps :=
        currentPlan.steps.filter (fun s => completedSteps.contains s.id) ++
        adjustedSteps }

/-- The `failedDeps` list `refinePlan` computes for one step (written with
`getD []` so that an absent `dependsOn` yields the empty list, matching the
no-annotation outcome of the source's `undefined`). -/
def failedDepsList (stepResults : List (ℕ × StepResult)) (s : PlanStep) : List ℕ :=
  (s.dependsOn.getD []).filter (fun dep =>
    match mapGet stepResults dep with
    | some r => !r.success
    | none => false)

/-! ## MultiAgentProcessor (`multi-agent.processor.ts`) -/

/-- A vision element inside a desktop/browser result's `uiState.elements`. -/
structure VElem where
  etype : String
  text : Option String
deriving DecidableEq, Repr

/-- `result.uiState`. -/
structure UiStateLite where
  summary : String
  elements : Option (List VElem)
deriving DecidableEq, Repr

/-- The shape of a terminal/desktop/browser agent result as consumed by
`executeStep` / `formatAgentOutput` (the agent executors themselves are
external collaborators). `tokenEstimate` stands for
`metadata?.tokenEstimate`; an absent field is `none`. -/
structure AgentResult where
  success : Bool
  content : Option String
  output : Option String
  uiState : Option UiStateLite
  error : Option String
  tokenEstimate : Option ℕ
deriving DecidableEq, Repr

/-- `AgentExecution`. -/
structure AgentExecution where
  stepId : ℕ
  agent : AgentType
  instruction : String
  result : ExecResult
  output : String
  tokensUsed : ℕ
  executionTime : ℤ
  timestamp : ℤ
deriving DecidableEq, Repr

/-- JS string truthiness for an optional field. -/
def jsTruthyStr (o : Option String) : Bool :=
  match o with
  | some s => !(s == "")
  | none => false

/-- `MultiAgentProcessor.formatAgentOutput`. -/
def formatAgentOutput (result : AgentResult) : String :=
  let parts : List String := []
  let parts := parts ++ (if jsTruthyStr result.content then [result.content.getD ""] else [])
  let parts := parts ++ (if jsTruthyStr result.output then [result.output.getD ""] else [])
  let parts := parts ++
    (match result.uiState with
     | some ui =>
       [ui.summary] ++
       (match ui.elements with
        | some es =>
          if es.length > 0 then
            ["Elements: " ++ String.intercalate ", " ((es.take 5).map (fun e =>
              e.etype ++ (match e.text with
                | some t => if !(t == "") then ": " ++ strTake t 20 else ""
                | none => "")))]
          else []
        | none => [])
     | none => [])
  let parts := parts ++
    (if jsTruthyStr result.error then ["Error: " ++ result.error.getD ""] else [])
  String.intercalate "\n" parts

/-- `MultiAgentProcessor.executeStep`. The agent collaborators are the
oracle `agentExec` (`Except.error` = the collaborator call threw); `clock`
supplies the successive `Date.now()` samples starting at index `tick`.
The `planner` case is answered inline with a fixed success result; agent
types not handled by the `switch` (`code`, `vision`) hit the `default:
throw`, which the surrounding `catch` converts into a failure execution. -/
def executeStep
    (agentExec : AgentType → String → AgentContext → Except String AgentResult)
    (clock : ℕ → ℤ) (tick : ℕ)
    (step : PlanStep) (context : AgentContext) : AgentExecution × ℕ :=
  let startTime := clock tick
  let optimizedContext := createAgentContext step.agent context
  let outcome : Except String AgentResult :=
    match step.agent with
    | .terminal => agentExec .terminal step.instruction optimizedContext
    | .desktop => agentExec .desktop step.instruction optimizedContext
    | .browser => agentExec .browser step.instruction optimizedContext
    | .planner => Except.ok
        { success := true, content := none, output := none,
          uiState := none, error := none, tokenEstimate := some 100 }
    | a => Except.error ("Unknown agent type: " ++ a.name)
  match outcome with
  | Except.ok result =>
    ({ stepId := step.id
       agent := step.agent
       instruction := step.instruction
       result := if result.success then ExecResult.success else ExecResult.failure
       output := formatAgentOutput result
       tokensUsed := jsOrNat result.tokenEstimate 100
       executionTime := clock (tick + 1) - startTime
       timestamp := clock (tick + 2) }, tick + 3)
  | Except.error msg =>
    ({ stepId := step.id
       agent := step.agent
       instruction := step.instruction
       result := ExecResult.failure
       output := "Error: " ++ msg
       tokensUsed := 50
       executionTime := clock (tick + 1) - startTime
       timestamp := clock (tick + 2) }, tick + 3)

/-- The mutable locals of `processTask`'s execution loop. -/
structure LoopState where
  plan : TaskPlan
  executions : List AgentExecution
  totalTokens : ℕ
  completedSteps : List ℕ
  stepResults : List (ℕ × StepResult)
  context : AgentContext
  tick : ℕ
deriving Repr

/-- The body of one executed iteration of `processTask`'s step loop:
execute the step, record the execution and its tokens, append a trimmed
`AgentAction` to `context.history`, add the step id to the completed set,
store the `{ success, output }` result, and replace the live `plan` by
`refinePlan`'s result when `shouldReplan` fires. -/
def execIter
    (agentExec : AgentType → String → AgentContext → Except String AgentResult)
    (clock : ℕ → ℤ) (st : LoopState) (step : PlanStep) : LoopState :=
  let stepOutcome := executeStep agentExec clock st.tick step st.context
  let execution := stepOutcome.1
  let tick1 := stepOutcome.2
  let totalTokens := st.totalTokens + execution.tokensUsed
  let context := { st.context with
    history := st.context.history ++
      [{ agent := step.agent
         action := step.instruction
         result := execution.result
         summary := strTake execution.output 200
         timestamp := clock tick1 }] }
  let completedSteps := setAdd st.completedSteps step.id
  let stepResults := mapSet st.stepResults step.id
    { success := execution.result == ExecResult.success
      output := execution.output
      metadata := none }
  let plan :=
    if shouldReplan st.plan stepResults then
      refinePlan st.plan completedSteps stepResults
    else st.plan
  { plan := plan
    executions := st.executions ++ [execution]
    totalTokens := totalTokens
    completedSteps := completedSteps
    stepResults := stepResults
    context := context
    tick := tick1 + 1 }

/-- `processTask`'s `for (const step of plan.steps)` loop. The iterated
list is the one captured when the loop began (JS evaluates `plan.steps`
once to obtain the iterator), so a later reassignment of `st.plan` by
`refinePlan` does not change the remaining `steps`. A step with unmet
dependencies is skipped (`continue`); the limit check then `break`s out of
the whole loop. -/
def execLoop
    (agentExec : AgentType → String → AgentContext → Except String AgentResult)
    (clock : ℕ → ℤ) (maxSteps maxTokens : ℕ) :
    List PlanStep → LoopState → LoopState
  | [], st => st
  | step :: rest, st =>
    let depsMet :=
      match step.dependsOn with
      | none => true
      | some ds => ds.all (fun d => st.completedSteps.contains d)
    if !depsMet then
      execLoop agentExec clock maxSteps maxTokens rest st
    else if st.executions.length ≥ maxSteps || st.totalTokens ≥ maxTokens then
      st
    else
      execLoop agentExec clock maxSteps maxTokens rest
        (execIter agentExec clock st step)

/-- `MultiAgentProcessor.synthesizeOutput`. -/
def synthesizeOutput (goal : String) (executions : List AgentExecution) : String :=
  let successful := executions.filter (fun e => e.result == ExecResult.success)
  let failed := executions.filter (fun e => e.result == ExecResult.failure)
  let lines : List String :=
    ["Task: " ++ goal,
     "Steps: " ++ toString successful.length ++ "/" ++
       toString executions.length ++ " succeeded",
     ""]
  let lines := lines ++
    (if successful.length > 0 then
      ["Results:"] ++ successful.map (fun e =>
        "  [" ++ e.agent.name ++ "] " ++ strTake e.output 200 ++
          (if e.output.length > 200 then "..." else ""))
    else [])
  let lines := lines ++
    (if failed.length > 0 then
      ["\nIssues:"] ++ failed.map (fun e =>
        "  [" ++ e.agent.name ++ "] " ++ strTake e.output 100)
    else [])
  String.intercalate "\n" lines

/-- `MultiAgentResult`. -/
structure MultiAgentResult where
  success : Bool
  plan : TaskPlan
  executions : List AgentExecution
  finalOutput : String
  totalTokens : ℕ
  totalTime : ℤ
deriving Repr

/-- The execution phase of `MultiAgentProcessor.processTask`, from the
freshly initialized context through the step loop to the synthesized
result. The plan argument is the one obtained earlier in `processTask`
(either `createPlan`'s output or the synthesized single-step plan); the
loop iterates over that plan's captured `steps` list. -/
def processTaskExec
    (agentExec : AgentType → String → AgentContext → Except String AgentResult)
    (clock : ℕ → ℤ) (startTime : ℤ)
    (goal taskId : String) (maxSteps maxTokens : ℕ)
    (plan : TaskPlan) : MultiAgentResult :=
  let context : AgentContext :=
    { taskId := taskId, goal := goal, history := [], files := []
      currentDirectory := "/home/user", browserUrl := none
      desktopActive := none, lastScreenshot := none
      accumulatedKnowledge := [] }
  let st0 : LoopState :=
    { plan := plan, executions := [], totalTokens := 0, completedSteps := []
      stepResults := [], context := context, tick := 0 }
  let fin := execLoop agentExec clock maxSteps maxTokens plan.steps st0
  { success := fin.executions.all (fun e => e.result == ExecResult.success)
    plan := fin.plan
    executions := fin.executions
    finalOutput := synthesizeOutput goal fin.executions
    totalTokens := fin.totalTokens
    totalTime := clock fin.tick - startTime }

/-! ## AccessibilityService (`accessibility.service.ts`) -/

/-- One new DP cell of `levenshteinDistance`'s matrix:
`matrix[i][j] = matrix[i-1][j-1]` on a character match, else
`min(matrix[i-1][j-1]+1, matrix[i][j-1]+1, matrix[i-1][j]+1)`.
Arguments: the row character `bc`, the remaining characters of `a`, the
diagonal cell `matrix[i-1][j-1]`, the left cell `matrix[i][j-1]`, and the
remaining previous row starting at `matrix[i-1][j]`. -/
def levRowAux (bc : Char) : List Char → ℕ → ℕ → List ℕ → List ℕ
  | [], _, _, _ => []
  | ac :: as, diag, left, prev =>
    let up := prev.headD 0
    let cur := if bc = ac then diag
      else Nat.min (diag + 1) (Nat.min (left + 1) (up + 1))
    cur :: levRowAux bc as up cur prev.tail

/-- `levenshteinDistance(a, b)`: row 0 is `0..a.length`
(`matrix[0][j] = j`); each character of `b` produces the next row, whose
first cell is `matrix[i][0] = i`; the answer is the last cell of the last
row (`matrix[b.length][a.length]`). -/
def levenshteinDistance (a b : List Char) : ℕ :=
  let row0 := List.range (a.length + 1)
  let finalRow := b.foldl (fun prev bc =>
    let first := prev.headD 0 + 1
    first :: levRowAux bc a (prev.headD 0) first prev.tail) row0
  finalRow.getLastD 0

/-- `stringSimilarity(a, b) = 1 - distance / maxLength` on the lowercased
strings (`1` when both empty, `0` when exactly one is empty). -/
def stringSimilarity (a b : String) : ℚ :=
  if a = "" ∧ b = "" then 1
  else if a = "" ∨ b = "" then 0
  else
    let distance := levenshteinDistance a.toLower.toList b.toLower.toList
    let maxLength := max a.length b.length
    if maxLength = 0 then 1 else 1 - (distance : ℚ) / (maxLength : ℚ)

/-- An accessibility-node rectangle. -/
structure Rect where
  x : ℚ
  y : ℚ
  width : ℚ
  height : ℚ
deriving DecidableEq, Repr

/-- `UiElement`: a normalized accessibility node (`rect = none` models
`null`). -/
inductive UiElement where
  | mk (id name role : String) (description : Option String)
       (rect : Option Rect) (states : List String) (depth : ℕ)
       (path : String) (children : List UiElement)

def UiElement.name : UiElement → String
  | .mk _ n _ _ _ _ _ _ _ => n

def UiElement.role : UiElement → String
  | .mk _ _ r _ _ _ _ _ _ => r

def UiElement.rect : UiElement → Option Rect
  | .mk _ _ _ _ rc _ _ _ _ => rc

def UiElement.children : UiElement → List UiElement
  | .mk _ _ _ _ _ _ _ _ ch => ch

/-- The spread copy `{...node, path: currentPath}` pushed by `searchNode`. -/
def UiElement.withPath (p : String) : UiElement → UiElement
  | .mk i n r d rc st dp _ ch => .mk i n r d rc st dp p ch

/-- `UiTreeResult`. -/
structure UiTreeResult where
  type : String
  tree : List UiElement
  source : String
  timestamp : String

/-- `CachedUiState`. -/
structure CachedUiState where
  result : UiTreeResult
  expiresAt : ℤ

/-- `CACHE_TTL_MS = 2000`. -/
def CACHE_TTL_MS : ℤ := 2000

/-- `AccessibilityService.getUiTree`, state-passing over the single cache
slot. `fetched` is what `fetchUiTree()` would return on this call (an
external subprocess chain); `now1`/`now2` are the two `Date.now()` samples
(cache check, expiry stamp). Result: the returned tree, the new cache
slot, and whether the fetch collaborator was invoked. -/
def getUiTree (useCache : Bool) (now1 now2 : ℤ) (fetched : UiTreeResult)
    (cache : Option CachedUiState) :
    UiTreeResult × Option CachedUiState × Bool :=
  match cache with
  | some c =>
    if useCache && decide (c.expiresAt > now1) then (c.result, some c, false)
    else (fetched, some { result := fetched, expiresAt := now2 + CACHE_TTL_MS }, true)
  | none => (fetched, some { result := fetched, expiresAt := now2 + CACHE_TTL_MS }, true)

/-- `AccessibilityService.clearCache`. -/
def clearCache (_cache : Option CachedUiState) : Option CachedUiState := none

/-- `'exact' | 'contains' | 'fuzzy' | 'role'`. -/
inductive MatchType where
  | exact
  | contains
  | fuzzy
  | role
deriving DecidableEq, Repr

/-- A `ScoredMatch` collected by `searchElements` (`node` already carries
the rewritten `path`). -/
structure ScoredMatch where
  node : UiElement
  score : ℚ
  matchType : Option MatchType

/-- The interactive-role boost list inside `searchNode`. -/
def interactiveRolesSearch : List String :=
  ["push button", "button", "link", "text", "entry", "menu item"]

/-- The tiered name-match cascade of `searchNode`: exact `1.0`, prefix
`0.9`, substring `0.8`, else edit-distance similarity × `0.7` when the
similarity reaches `fuzzyThreshold`; when no branch applies (or there is no
query / no name) the prior `(score, matchType)` pair — the role tier or
`(0, null)` — stands. -/
def nameTierScore (searchLower nodeName nodeNameLower : String)
    (fuzzyThreshold : ℚ) (base : ℚ × Option MatchType) : ℚ × Option MatchType :=
  if searchLower ≠ "" ∧ nodeName ≠ "" then
    if nodeNameLower == searchLower then (1, some MatchType.exact)
    else if listStartsWith nodeNameLower.toList searchLower.toList then
      (9/10, some MatchType.contains)
    else if listIncludes nodeNameLower.toList searchLower.toList then
      (8/10, some MatchType.contains)
    else
      if stringSimilarity nodeNameLower searchLower ≥ fuzzyThreshold then
        (stringSimilarity nodeNameLower searchLower * (7/10), some MatchType.fuzzy)
      else base
  else base

/-- The `+0.1` interactive-role boost of `searchNode`. -/
def roleBoost (nodeRole : String) (score : ℚ) : ℚ :=
  if interactiveRolesSearch.any (fun r => listIncludes nodeRole.toList r.toList) then
    score + 1/10
  else score

/-- The `+0.05` non-degenerate-rectangle boost of `searchNode`. -/
def rectBoost (rct : Option Rect) (score : ℚ) : ℚ :=
  match rct with
  | some rc => if rc.width > 0 ∧ rc.height > 0 then score + 1/20 else score
  | none => score

/-- Both additive boosts of `searchNode`, in source order. -/
def applyBoosts (nodeRole : String) (rct : Option Rect) (score : ℚ) : ℚ :=
  rectBoost rct (roleBoost nodeRole score)

/-- The per-tier score bound every collected match satisfies: a fuzzy-tier
match scores at least `min(0.7 · fuzzyThreshold, 1)` and a role-tier match
at least `0.5` (exact/prefix/substring tiers are exempt, as in the spec). -/
def matchTier (ft : ℚ) (m : ScoredMatch) : Prop :=
  (m.matchType = some MatchType.fuzzy → min ((7/10) * ft) 1 ≤ m.score) ∧
  (m.matchType = some MatchType.role → (1/2 : ℚ) ≤ m.score)

mutual
/-- `searchNode` from `searchElements`: depth/cap guards, role gate (a
role mismatch still recurses into children), tiered name scoring, boosts,
clamped push, then recursion into children. The pushed record is the
spread copy `{...node, path: currentPath, score, matchType}`. -/
def searchNode (searchLower : String) (targetRole : Option String)
    (fuzzyThreshold : ℚ) (maxResults : ℕ)
    (node : UiElement) (parentPath : String) (depth : ℕ)
    (matchesArr : List ScoredMatch) : List ScoredMatch :=
  match node with
  | .mk nid nm rl dsc rct sts dp _pth ch =>
    if matchesArr.length ≥ maxResults * 2 then matchesArr
    else if depth > 15 then matchesArr
    else
      let nameOrRole := if nm ≠ "" then nm else rl
      let currentPath :=
        if parentPath ≠ "" then parentPath ++ " > " ++ nameOrRole else nameOrRole
      let nodeName := nm.trim
      let nodeNameLower := nodeName.toLower
      let nodeRole := rl.toLower
      let roleMatch :=
        match targetRole with
        | none => true
        | some tr => nodeRole == tr || listIncludes nodeRole.toList tr.toList
      if !roleMatch then
        searchNodes searchLower targetRole fuzzyThreshold maxResults
          ch currentPath (depth + 1) matchesArr
      else
        let base : ℚ × Option MatchType :=
          if targetRole.isSome && searchLower == "" then (1/2, some MatchType.role)
          else (0, none)
        let scored :=
          nameTierScore searchLower nodeName nodeNameLower fuzzyThreshold base
        let matchesArr :=
          if scored.1 > 0 then
            matchesArr ++
              [{ node := UiElement.mk nid nm rl dsc rct sts dp currentPath ch,
                 score := min (applyBoosts nodeRole rct scored.1) 1,
                 matchType := scored.2 }]
          else matchesArr
        searchNodes searchLower targetRole fuzzyThreshold maxResults
          ch currentPath (depth + 1) matchesArr

/-- `children.forEach((child) => searchNode(child, currentPath, depth+1))`. -/
def searchNodes (searchLower : String) (targetRole : Option String)
    (fuzzyThreshold : ℚ) (maxResults : ℕ) :
    List UiElement → String → ℕ → List ScoredMatch → List ScoredMatch
  | [], _, _, ms => ms
  | c :: cs, pp, d, ms =>
    searchNodes searchLower targetRole fuzzyThreshold maxResults cs pp d
      (searchNode searchLower targetRole fuzzyThreshold maxResults c pp d ms)
end

/-- Non-increasing score order used to model the JS
`matches.sort((a, b) => b.score - a.score)`. -/
def scoreGe (a b : ScoredMatch) : Prop := b.score ≤ a.score

instance : DecidableRel scoreGe := fun a b => inferInstanceAs (Decidable (b.score ≤ a.score))

instance : IsTotal ScoredMatch scoreGe := ⟨fun a b => le_total b.score a.score⟩

instance : IsTrans ScoredMatch scoreGe := ⟨fun _ _ _ h1 h2 => le_trans h2 h1⟩

/-- The result record of `searchElements`. -/
structure SearchElementsResult where
  count : ℕ
  matchesArr : List ScoredMatch
  source : String
  query : String

/-- `AccessibilityService.searchElements` on an already-fetched tree
(`getUiTree` supplies `uiTree`): collect scored matches depth-first, sort
by descending score (a stable sort, as the JS runtime's), truncate to
`maxResults`. Defaults at the call site: `maxResults = 50`,
`fuzzyThreshold = 0.6`. -/
def searchElements (uiTree : UiTreeResult) (query : String)
    (role : Option String) (maxResults : ℕ) (fuzzyThreshold : ℚ) :
    SearchElementsResult :=
  let searchLower := query.toLower.trim
  let targetRole := role.map (fun r => r.toLower.trim)
  let collected := searchNodes searchLower targetRole fuzzyThreshold maxResults
    uiTree.tree "" 0 []
  let sorted := collected.insertionSort scoreGe
  let topMatches := sorted.take maxResults
  { count := topMatches.length, matchesArr := topMatches,
    source := uiTree.source, query := query }

/-! ## VisionService: state-change detection and stabilization
(`computer-use.service.ts`) -/

/-- A detected element's center point. -/
structure Center where
  x : ℚ
  y : ℚ
deriving DecidableEq, Repr

/-- `DetectedElement` (`center` may be `undefined`: the normalizer in
`detectElements` leaves it absent when the detector supplies none). -/
structure DetectedElement where
  id : String
  type : String
  bbox : ℚ × ℚ × ℚ × ℚ
  confidence : ℚ
  text : Option String
  center : Option Center
deriving DecidableEq, Repr

/-- Squared Euclidean distance between centers, with the source's
`(a.center?.x || 0)` defaulting. -/
def elementDistanceSq (a b : DetectedElement) : ℚ :=
  let dx := ((a.center.map Center.x).getD 0) - ((b.center.map Center.x).getD 0)
  let dy := ((a.center.map Center.y).getD 0) - ((b.center.map Center.y).getD 0)
  dx * dx + dy * dy

/-- `elementDistance(a, b) < t` for a nonnegative threshold `t`:
`Math.sqrt(dx*dx + dy*dy) < t` iff `dx*dx + dy*dy < t*t`, which avoids an
irrational square root in the embedding (the source only compares the
distance against the constants 50 and 20). -/
def elementDistLt (a b : DetectedElement) (t : ℚ) : Bool :=
  decide (elementDistanceSq a b < t * t)

/-- `StateChange`'s tag. -/
inductive ChangeType where
  | element_added
  | element_removed
  | element_moved
  | text_changed
  | state_changed
deriving DecidableEq, Repr

/-- `StateChange` (absent `before`/`after` fields are `none`). -/
structure StateChange where
  ctype : ChangeType
  element : Option DetectedElement
  before : Option String
  after : Option String
deriving DecidableEq, Repr

/-- The retained `previousState` slot. -/
structure PrevState where
  elements : List DetectedElement
  timestamp : ℤ
  screenshot : String
deriving DecidableEq, Repr

/-- `VisionService.summarizeChanges`. -/
def summarizeChanges (changes : List StateChange) : String :=
  if changes.length = 0 then "No changes detected"
  else
    let added := (changes.filter (fun c => c.ctype == ChangeType.element_added)).length
    let removed := (changes.filter (fun c => c.ctype == ChangeType.element_removed)).length
    let textChanged := (changes.filter (fun c => c.ctype == ChangeType.text_changed)).length
    let parts : List String :=
      (if added > 0 then [toString added ++ " element(s) added"] else []) ++
      (if removed > 0 then [toString removed ++ " element(s) removed"] else []) ++
      (if textChanged > 0 then [toString textChanged ++ " text change(s)"] else [])
    String.intercalate ", " parts

/-- The result record of `detectStateChanges`. -/
structure StateChangesResult where
  changes : List StateChange
  hasSignificantChange : Bool
  summary : String
deriving DecidableEq, Repr

/-- `VisionService.detectStateChanges`, state-passing over the single
`previousState` slot. `currentElements`/`annotatedImage` are what this
call's `detectElements()` (an external collaborator) returned; `now` is
the `Date.now()` sample. Returns the result record and the new
`previousState`. Added = current element with no same-type previous
element within 50px; removed = symmetric; text-changed = a previous
element within 20px whose `text` differs. -/
def detectStateChanges (previousState : Option PrevState)
    (currentElements : List DetectedElement) (annotatedImage : Option String)
    (now : ℤ) : StateChangesResult × PrevState :=
  let currentState : PrevState :=
    { elements := currentElements, timestamp := now,
      screenshot := annotatedImage.getD "" }
  match previousState with
  | none =>
    ({ changes := [], hasSignificantChange := false,
       summary := "Initial state captured" }, currentState)
  | some prev =>
    let prevElements := prev.elements
    let currElements := currentState.elements
    let added := currElements.filterMap (fun curr =>
      match prevElements.find? (fun p =>
          elementDistLt p curr 50 && p.type == curr.type) with
      | some _ => none
      | none => some { ctype := ChangeType.element_added, element := some curr,
                       before := none, after := none })
    let removed := prevElements.filterMap (fun prevE =>
      match currElements.find? (fun c =>
          elementDistLt c prevE 50 && c.type == prevE.type) with
      | some _ => none
      | none => some { ctype := ChangeType.element_removed, element := some prevE,
                       before := none, after := none })
    let textChanges := currElements.filterMap (fun curr =>
      match prevElements.find? (fun p => elementDistLt p curr 20) with
      | some m =>
        if m.text ≠ curr.text then
          some { ctype := ChangeType.text_changed, element := some curr,
                 before := m.text, after := curr.text }
        else none
      | none => none)
    let changes := added ++ removed ++ textChanges
    let hasSignificantChange := changes.length > 0 &&
      changes.any (fun c =>
        !(c.ctype == ChangeType.text_changed) || jsTruthyStr c.after)
    ({ changes := changes, hasSignificantChange := hasSignificantChange,
       summary := summarizeChanges changes }, currentState)

/-- The result of `waitForStabilization`; `finalState` is the last
significant `detectStateChanges` result observed (`null` when none was). -/
structure StabResult (α : Type) where
  stabilized : Bool
  finalState : Option α
deriving DecidableEq, Repr

/-- The polling loop of `VisionService.waitForStabilization`, one
constructor case per iteration. Oracles: `poll i` is what the `i`-th
`detectStateChanges()` call returns and `sig` reads its
`hasSignificantChange`; `g i`, `c i`, `s i` are the `Date.now()` samples
of iteration `i` (loop guard, last-change stamp, quiet-period check).
`fuel` bounds the number of modelled iterations: `none` means the budget
was exhausted before the loop returned (the termination theorem shows a
sufficient budget under advancing time), and is not a program outcome. -/
def waitLoop {α : Type} (timeoutMs stablePeriodMs startTime : ℤ)
    (g c s : ℕ → ℤ) (poll : ℕ → α) (sig : α → Bool) :
    ℕ → ℕ → ℤ → Option α → Option (StabResult α)
  | 0, _, _, _ => none
  | fuel + 1, i, lastChangeTime, lastState =>
    if g i - startTime < timeoutMs then
      let changes := poll i
      let lastChangeTime1 := if sig changes then c i else lastChangeTime
      let lastState1 := if sig changes then some changes else lastState
      if s i - lastChangeTime1 ≥ stablePeriodMs then
        some { stabilized := true, finalState := lastState1 }
      else
        waitLoop timeoutMs stablePeriodMs startTime g c s poll sig fuel (i + 1)
          lastChangeTime1 lastState1
    else
      some { stabilized := false, finalState := lastState }

/-- `VisionService.waitForStabilization(timeoutMs = 5000,
stablePeriodMs = 500)`: enter the loop with `lastChangeTime = startTime`
and `lastState = null`. -/
def waitForStabilization {α : Type} (fuel : ℕ)
    (timeoutMs stablePeriodMs startTime : ℤ) (g c s : ℕ → ℤ)
    (poll : ℕ → α) (sig : α → Bool) : Option (StabResult α) :=
  waitLoop timeoutMs stablePeriodMs startTime g c s poll sig fuel 0 startTime none

/-! ## Concrete fixtures used by witnesses and counterexamples -/

/-- A context with six history entries and six knowledge entries. -/
def ctxSix : AgentContext :=
  { taskId := "t", goal := "g",
    history := (List.range 6).map (fun i =>
      { agent := AgentType.terminal, action := toString i,
        result := ExecResult.success, summary := "", timestamp := 0 }),
    files := [{ path := "a.ts", isDirectory := false, size := none,
                modified := none, contentHash := none }],
    currentDirectory := "/home/user", browserUrl := none,
    desktopActive := none, lastScreenshot := none,
    accumulatedKnowledge := (List.range 6).map toString }

/-- A dependency-free terminal step. -/
def mkStep (i : ℕ) (ins : String) : PlanStep :=
  { id := i, agent := AgentType.terminal, instruction := ins,
    dependsOn := none, expectedOutput := "", verification := none,
    maxRetries := none }

/-- A three-step plan with ids 1, 2, 3. -/
def planABC : TaskPlan :=
  { goal := "g", steps := [mkStep 1 "a", mkStep 2 "b", mkStep 3 "c"],
    estimatedTokens := 0, estimatedTime := 0, parallelizable := false,
    verificationCriteria := [] }

/-- Step 1 of the two-step plan. -/
def stepOne : PlanStep := mkStep 1 "a"

/-- Step 2 of the two-step plan, depending on step 1. -/
def stepTwoDep : PlanStep := { mkStep 2 "b" with dependsOn := some [1] }

/-- A two-step plan where step 2 depends on step 1. -/
def planAB : TaskPlan :=
  { planABC with steps := [stepOne, stepTwoDep] }

/-- An agent collaborator that always throws. -/
def throwingExec : AgentType → String → AgentContext → Except String AgentResult :=
  fun _ _ _ => Except.error "boom"

/-- A constant wall clock. -/
def zeroClock : ℕ → ℤ := fun _ => 0

/-- The initial loop state `processTask` builds for `planAB`. -/
def initialStateAB : LoopState :=
  { plan := planAB, executions := [], totalTokens := 0, completedSteps := []
    stepResults := []
    context := { taskId := "t", goal := "g", history := [], files := []
                 currentDirectory := "/home/user", browserUrl := none
                 desktopActive := none, lastScreenshot := none
                 accumulatedKnowledge := [] }
    tick := 0 }

/-- A recorded failure for step 1. -/
def failResults : List (ℕ × StepResult) :=
  [(1, { success := false, output := "Error: boom", metadata := none })]

/-- A one-node accessibility tree whose element is named `axc`. -/
def axcTree : UiTreeResult :=
  { type := "axtree",
    tree := [UiElement.mk "0" "axc" "panel" none none [] 0 "axc" []],
    source := "pyatspi", timestamp := "t0" }

/-- A second fetched tree, distinguishable from `axcTree`. -/
def axcTree2 : UiTreeResult :=
  { type := "axtree", tree := [], source := "wmctrl", timestamp := "t1" }

/-- A detected button at the origin. -/
def prevButton : DetectedElement :=
  { id := "p", type := "button", bbox := (0, 0, 10, 10), confidence := 1,
    text := some "ok", center := some { x := 0, y := 0 } }

/-- The same-type element 100 px to the right. -/
def currButton : DetectedElement :=
  { id := "c", type := "button", bbox := (100, 0, 10, 10), confidence := 1,
    text := some "ok", center := some { x := 100, y := 0 } }

/-- Stabilization fixtures: guard samples advance 100 ms per iteration. -/
def stabG : ℕ → ℤ := fun i => 100 * (i : ℤ) + 100

def stabC : ℕ → ℤ := fun i => 100 * (i : ℤ) + 150

def stabS : ℕ → ℤ := fun i => 100 * (i : ℤ) + 700

def stabPoll : ℕ → Bool := fun _ => false

def stabSig : Bool → Bool := fun b => b

/-! ## Theorems -/

/-- **C10**: for every agent type and input context,
`AgentOrchestrator.createAgentContext` leaves the input `fullContext`
unchanged — the state-passing embedding threads the input through every
statement of the body, and it comes back equal to the original, so its
history, files, accumulatedKnowledge and scalar fields all hold their
original values after the call. -/
theorem createAgentContext_input_frame (t : AgentType) (ctx : AgentContext) :
    (createAgentContextSt t ctx).1 = ctx := by
  cases t <;> rfl

/-- **C3** (counterexample): on a context with six history entries, the
context built for `planner` does not contain the full history — the final
`optimized.history.slice(-5)` caps it for every agent type, `planner`
included. -/
theorem createAgentContext_planner_history_capped_cex :
    (createAgentContext AgentType.planner ctxSix).history ≠ ctxSix.history := by
  decide

/-- **C3** (amended): `createAgentContext('planner', ctx)` returns the full
unfiltered `files` and `accumulatedKnowledge` and the unfiltered history
capped to its last 5 entries; planner is the only agent type whose output
always keeps the full knowledge (every other type trims it on a context
with six knowledge entries). -/
theorem createAgentContext_planner_full_spec :
    (∀ ctx : AgentContext,
       (createAgentContext AgentType.planner ctx).files = ctx.files ∧
       (createAgentContext AgentType.planner ctx).accumulatedKnowledge =
         ctx.accumulatedKnowledge ∧
       (createAgentContext AgentType.planner ctx).history =
         sliceLast 5 ctx.history) ∧
    (∀ t : AgentType, t ≠ AgentType.planner →
       (createAgentContext t ctxSix).accumulatedKnowledge ≠
         ctxSix.accumulatedKnowledge) := by
  constructor
  · intro ctx
    exact ⟨rfl, rfl, rfl⟩
  · intro t ht
    cases t
    · exact absurd rfl ht
    all_goals decide

/-- **C3** (witness): the amended statement evaluated at the concrete
six-entry context, for `planner` and for `terminal`. -/
theorem createAgentContext_planner_full_spec_witness :
    (createAgentContext AgentType.planner ctxSix).files = ctxSix.files ∧
    (createAgentContext AgentType.terminal ctxSix).accumulatedKnowledge ≠
      ctxSix.accumulatedKnowledge :=
  ⟨(createAgentContext_planner_full_spec.1 ctxSix).1,
   createAgentContext_planner_full_spec.2 AgentType.terminal (by decide)⟩

/-- **C4**: `getUiTree(useCache=true)` called again while the cached slot
is unexpired returns the identical cached `UiTreeResult` (the same record,
hence the same `timestamp`) and does not invoke the fetch collaborator;
called after the TTL expired, or after `clearCache()`, it fetches afresh
and restamps the slot. -/
theorem getUiTree_cache_ttl_spec :
    (∀ (cache : Option CachedUiState) (a1 a2 b1 b2 : ℤ)
       (f1 f2 : UiTreeResult) (c : CachedUiState),
       (getUiTree true a1 a2 f1 cache).2.1 = some c → b1 < c.expiresAt →
       getUiTree true b1 b2 f2 (getUiTree true a1 a2 f1 cache).2.1 =
         ((getUiTree true a1 a2 f1 cache).1,
          (getUiTree true a1 a2 f1 cache).2.1, false)) ∧
    (∀ (r : UiTreeResult) (e b1 b2 : ℤ) (f2 : UiTreeResult), e ≤ b1 →
       getUiTree true b1 b2 f2 (some ⟨r, e⟩) =
         (f2, some ⟨f2, b2 + CACHE_TTL_MS⟩, true)) ∧
    (∀ (cache : Option CachedUiState) (b1 b2 : ℤ) (f2 : UiTreeResult),
       getUiTree true b1 b2 f2 (clearCache cache) =
         (f2, some ⟨f2, b2 + CACHE_TTL_MS⟩, true)) := by
  refine ⟨?_, ?_, ?_⟩
  · intro cache a1 a2 b1 b2 f1 f2 c hc hb
    match cache with
    | none =>
      simp only [getUiTree] at hc ⊢
      cases hc
      simp [hb]
    | some c0 =>
      by_cases h0 : c0.expiresAt > a1
      · have h1 : getUiTree true a1 a2 f1 (some c0) = (c0.result, some c0, false) := by
          simp [getUiTree, h0]
        rw [h1] at hc ⊢
        cases hc
        simp [getUiTree, hb]
      · have h1 : getUiTree true a1 a2 f1 (some c0) =
            (f1, some ⟨f1, a2 + CACHE_TTL_MS⟩, true) := by
          simp [getUiTree, h0]
        rw [h1] at hc ⊢
        cases hc
        simp [getUiTree, hb]
  · intro r e b1 b2 f2 he
    simp only [getUiTree]
    rw [if_neg (by simp; omega)]
  · intro cache b1 b2 f2
    rfl

/-- **C4** (witness): first call at time 0 fetches and caches with expiry
2000; a second call at 1000 returns the cached tree without fetching; a
call at 2500 against that slot fetches afresh, as does one after
`clearCache`. -/
theorem getUiTree_cache_ttl_spec_witness :
    getUiTree true 1000 1001 axcTree2 (getUiTree true 0 0 axcTree none).2.1 =
      ((getUiTree true 0 0 axcTree none).1,
       (getUiTree true 0 0 axcTree none).2.1, false) ∧
    getUiTree true 2500 2501 axcTree2 (some ⟨axcTree, 2000⟩) =
      (axcTree2, some ⟨axcTree2, 2501 + CACHE_TTL_MS⟩, true) ∧
    getUiTree true 1000 1001 axcTree2 (clearCache (some ⟨axcTree, 2000⟩)) =
      (axcTree2, some ⟨axcTree2, 1001 + CACHE_TTL_MS⟩, true) :=
  ⟨getUiTree_cache_ttl_spec.1 none 0 0 1000 1001 axcTree axcTree2
     ⟨axcTree, 2000⟩ rfl (by decide),
   getUiTree_cache_ttl_spec.2.1 axcTree 2000 2500 2501 axcTree2 (by decide),
   getUiTree_cache_ttl_spec.2.2 (some ⟨axcTree, 2000⟩) 1000 1001 axcTree2⟩

/-- **C1**: evaluating the execution loop on a two-step plan whose first
step's collaborator throws (so `shouldReplan` fires and the live plan is
replaced by `refinePlan`'s result, which annotates step 2): the returned
plan carries the annotated instruction, but the second execution ran with
the stale instruction `"b"` — the `for (const step of plan.steps)` iterator
was captured from the pre-replan step list, so execution does **not**
continue over the new plan's remaining steps. -/
theorem processTask_stale_iteration_after_replan :
    (processTaskExec throwingExec zeroClock 0 "g" "t" 10 10000 planAB).executions.map
        AgentExecution.instruction = ["a", "b"] ∧
    (processTaskExec throwingExec zeroClock 0 "g" "t" 10 10000 planAB).plan.steps.map
        PlanStep.instruction =
      ["a", "b (Note: Step 1 had issues, proceed with caution)"] := by
  constructor <;> with_unfolding_all rfl

/-- **C8**: a collaborator throw inside `executeStep` is caught and becomes
a `failure` execution whose output carries the error message (with the
catch path's 50-token charge); and the step loop proceeds to the remaining
steps after any executed step — the recursion continues on `rest`
regardless of the execution's result. -/
theorem executeStep_catches_collaborator_throw :
    (∀ (agentExec : AgentType → String → AgentContext → Except String AgentResult)
       (clock : ℕ → ℤ) (tick : ℕ) (step : PlanStep) (ctx : AgentContext)
       (msg : String),
       (step.agent = AgentType.terminal ∨ step.agent = AgentType.desktop ∨
         step.agent = AgentType.browser) →
       agentExec step.agent step.instruction
           (createAgentContext step.agent ctx) = Except.error msg →
       (executeStep agentExec clock tick step ctx).1.result = ExecResult.failure ∧
       (executeStep agentExec clock tick step ctx).1.output = "Error: " ++ msg ∧
       (executeStep agentExec clock tick step ctx).1.tokensUsed = 50) ∧
    (∀ (agentExec : AgentType → String → AgentContext → Except String AgentResult)
       (clock : ℕ → ℤ) (maxSteps maxTokens : ℕ) (step : PlanStep)
       (rest : List PlanStep) (st : LoopState),
       (match step.dependsOn with
        | none => true
        | some ds => ds.all (fun d => st.completedSteps.contains d)) = true →
       st.executions.length < maxSteps → st.totalTokens < maxTokens →
       execLoop agentExec clock maxSteps maxTokens (step :: rest) st =
         execLoop agentExec clock maxSteps maxTokens rest
           (execIter agentExec clock st step)) := by
  constructor
  · intro agentExec clock tick step ctx msg hag hthrow
    obtain ⟨sid, ag, ins, dep, eo, ver, mr⟩ := step
    simp only [executeStep] at hthrow ⊢
    rcases hag with h | h | h <;> (cases h; rw [hthrow]; exact ⟨rfl, rfl, rfl⟩)
  · intro agentExec clock maxSteps maxTokens step rest st hdeps h1 h2
    simp only [execLoop]
    rw [hdeps]
    simp only [Bool.not_true, Bool.false_eq_true, if_false]
    rw [if_neg]
    simp only [ge_iff_le, Bool.or_eq_true, decide_eq_true_eq, not_or, not_le]
    exact ⟨h1, h2⟩

/-- **C8** (witness): the throwing collaborator on step 1 of the concrete
plan yields a failure execution with output `Error: boom`, and the loop
continues into step 2. -/
theorem executeStep_catches_collaborator_throw_witness :
    ((executeStep throwingExec zeroClock 0 stepOne
        initialStateAB.context).1.result = ExecResult.failure ∧
     (executeStep throwingExec zeroClock 0 stepOne
        initialStateAB.context).1.output = "Error: " ++ "boom" ∧
     (executeStep throwingExec zeroClock 0 stepOne
        initialStateAB.context).1.tokensUsed = 50) ∧
    execLoop throwingExec zeroClock 10 10000 (stepOne :: [stepTwoDep])
        initialStateAB =
      execLoop throwingExec zeroClock 10 10000 [stepTwoDep]
        (execIter throwingExec zeroClock initialStateAB stepOne) :=
  ⟨executeStep_catches_collaborator_throw.1 throwingExec zeroClock 0 stepOne
      initialStateAB.context "boom" (Or.inl rfl) rfl,
   executeStep_catches_collaborator_throw.2 throwingExec zeroClock 10 10000
      stepOne [stepTwoDep] initialStateAB rfl (by decide) (by decide)⟩

/-- Helper: a filter and its complement, concatenated, are a permutation of
the original list. -/
theorem filter_append_not_filter_perm (p : α → Bool) (l : List α) :
    (l.filter p ++ l.filter (fun a => !(p a))).Perm l := by
  induction l with
  | nil => simp
  | cons a t ih =>
    cases h : p a
    · simpa [List.filter_cons, h] using (List.perm_middle.trans (ih.cons a))
    · simpa [List.filter_cons, h] using ih.cons a

/-- **C6** (counterexample): with the completed set `{1, 3}` on the
three-step plan, `refinePlan` returns the steps in the order `1, 3, 2` —
not the input's relative order — because completed steps are gathered in
front of the remaining ones. -/
theorem refinePlan_reorders_cex :
    ((refinePlan planABC [1, 3] []).steps.map PlanStep.id) ≠
      planABC.steps.map PlanStep.id := by
  decide

/-- **C6** (amended): `refinePlan` keeps the goal and estimates; its step
list is the input's completed steps verbatim in plan order, followed by the
remaining steps in plan order, each unchanged except that the cautionary
note listing its failed dependencies is appended to the instruction exactly
when a declared dependency has a recorded failing result; the step ids are
a permutation of the input's (order is preserved only when the completed
ids sit in a prefix of the step list; the counterexample shows the swap
otherwise). -/
theorem refinePlan_keeps_and_annotates_spec (plan : TaskPlan)
    (completed : List ℕ) (results : List (ℕ × StepResult)) :
    (refinePlan plan completed results).goal = plan.goal ∧
    (refinePlan plan completed results).estimatedTokens = plan.estimatedTokens ∧
    (refinePlan plan completed results).steps =
      plan.steps.filter (fun s => completed.contains s.id) ++
        (plan.steps.filter (fun s => !(completed.contains s.id))).map
          (adjustStep results) ∧
    ((refinePlan plan completed results).steps.map PlanStep.id).Perm
      (plan.steps.map PlanStep.id) ∧
    (∀ s : PlanStep,
       (adjustStep results s).id = s.id ∧
       (adjustStep results s).agent = s.agent ∧
       (adjustStep results s).dependsOn = s.dependsOn ∧
       (adjustStep results s).expectedOutput = s.expectedOutput ∧
       (adjustStep results s).verification = s.verification ∧
       (adjustStep results s).maxRetries = s.maxRetries) ∧
    (∀ s : PlanStep,
       (failedDepsList results s ≠ [] →
         (adjustStep results s).instruction =
           s.instruction ++ planRefineNote (failedDepsList results s)) ∧
       (failedDepsList results s = [] → adjustStep results s = s)) := by
  have hproj : ∀ s : PlanStep,
      (adjustStep results s).id = s.id ∧
      (adjustStep results s).agent = s.agent ∧
      (adjustStep results s).dependsOn = s.dependsOn ∧
      (adjustStep results s).expectedOutput = s.expectedOutput ∧
      (adjustStep results s).verification = s.verification ∧
      (adjustStep results s).maxRetries = s.maxRetries := by
    intro s
    unfold adjustStep
    cases hd : s.dependsOn with
    | none => simp [hd]
    | some ds =>
      by_cases hl : 0 < (ds.filter (fun dep =>
          match mapGet results dep with
          | some r => !r.success
          | none => false)).length
      · simp [hl, hd]
      · simp [hl, hd]
  refine ⟨rfl, rfl, rfl, ?_, hproj, ?_⟩
  · show ((plan.steps.filter (fun s => completed.contains s.id) ++
      (plan.steps.filter (fun s => !(completed.contains s.id))).map
        (adjustStep results)).map PlanStep.id).Perm _
    rw [List.map_append, List.map_map]
    have hmap : (plan.steps.filter (fun s => !(completed.contains s.id))).map
        (PlanStep.id ∘ adjustStep results) =
        (plan.steps.filter (fun s => !(completed.contains s.id))).map PlanStep.id := by
      apply List.map_congr_left
      intro a _
      exact (hproj a).1
    rw [hmap, ← List.map_append]
    exact (filter_append_not_filter_perm _ _).map _
  · intro s
    constructor
    · intro hne
      unfold adjustStep
      unfold failedDepsList at hne ⊢
      cases hd : s.dependsOn with
      | none => rw [hd] at hne; exact absurd rfl hne
      | some ds =>
        rw [hd] at hne
        simp only [Option.getD_some] at hne
        have hl : 0 < (ds.filter (fun dep =>
            match mapGet results dep with
            | some r => !r.success
            | none => false)).length := List.length_pos.mpr hne
        simp [hl]
    · intro hnil
      unfold adjustStep
      unfold failedDepsList at hnil
      cases hd : s.dependsOn with
      | none => rfl
      | some ds =>
        rw [hd] at hnil
        simp only [Option.getD_some] at hnil
        simp [hnil]

/-- **C6** (witness): evaluated concretely — with a recorded failure of
step 1, step 2's instruction gets the note appended; with no recorded
failures, step 1 comes back unchanged. -/
theorem refinePlan_keeps_and_annotates_spec_witness :
    (adjustStep failResults stepTwoDep).instruction =
      stepTwoDep.instruction ++
        planRefineNote (failedDepsList failResults stepTwoDep) ∧
    adjustStep [] stepOne = stepOne :=
  ⟨((refinePlan_keeps_and_annotates_spec planAB [1] failResults).2.2.2.2.2
      stepTwoDep).1 (by decide),
   ((refinePlan_keeps_and_annotates_spec planAB [] []).2.2.2.2.2
      stepOne).2 (by decide)⟩

/-- **C7**: `detectStateChanges` with no retained previous state returns
`changes = []`, `hasSignificantChange = false` and seeds the baseline with
the freshly detected elements; and when the previous snapshot holds one
element and the current one holds a same-type element whose center moved
farther than the 50 px matching threshold (squared distance at least
50 · 50, e.g. 100 px), that element is reported both as `element_added`
(the current copy) and as `element_removed` (the previous copy). -/
theorem detectStateChanges_first_and_moved_spec :
    (∀ (elems : List DetectedElement) (img : Option String) (now : ℤ),
       detectStateChanges none elems img now =
         ({ changes := [], hasSignificantChange := false,
            summary := "Initial state captured" },
          { elements := elems, timestamp := now, screenshot := img.getD "" })) ∧
    (∀ (p c : DetectedElement) (t0 now : ℤ) (ss : String) (img : Option String),
       p.type = c.type → (50 : ℚ) * 50 ≤ elementDistanceSq p c →
       (detectStateChanges (some ⟨[p], t0, ss⟩) [c] img now).1.changes =
         [⟨ChangeType.element_added, some c, none, none⟩,
          ⟨ChangeType.element_removed, some p, none, none⟩] ∧
       (detectStateChanges (some ⟨[p], t0, ss⟩) [c] img now).1.hasSignificantChange
         = true) := by
  constructor
  · intro elems img now
    rfl
  · intro p c t0 now ss img _htype hdist
    have hsym : elementDistanceSq c p = elementDistanceSq p c := by
      unfold elementDistanceSq
      ring
    have h50 : elementDistLt p c 50 = false := by
      unfold elementDistLt
      exact decide_eq_false (not_lt.mpr hdist)
    have h50s : elementDistLt c p 50 = false := by
      unfold elementDistLt
      rw [hsym]
      exact decide_eq_false (not_lt.mpr hdist)
    have h20 : elementDistLt p c 20 = false := by
      unfold elementDistLt
      refine decide_eq_false (not_lt.mpr ?_)
      nlinarith [hdist]
    constructor
    · simp [detectStateChanges, h50, h50s, h20]
    · simp [detectStateChanges, h50, h50s, h20]

/-- **C7** (witness): the first-call clause at a concrete element list, and
the moved-element clause at a button moved 100 px to the right
(squared distance 10000 ≥ 2500). -/
theorem detectStateChanges_first_and_moved_spec_witness :
    detectStateChanges none [prevButton] none 3 =
      ({ changes := [], hasSignificantChange := false,
         summary := "Initial state captured" },
       { elements := [prevButton], timestamp := 3, screenshot := "" }) ∧
    (detectStateChanges (some ⟨[prevButton], 0, ""⟩) [currButton] none 5).1.changes =
      [⟨ChangeType.element_added, some currButton, none, none⟩,
       ⟨ChangeType.element_removed, some prevButton, none, none⟩] :=
  ⟨detectStateChanges_first_and_moved_spec.1 [prevButton] none 3,
   (detectStateChanges_first_and_moved_spec.2 prevButton currButton 0 5 "" none
      rfl (by with_unfolding_all decide)).1⟩

/-- Helper for the stabilization claim: with guard samples advancing by at
least 100 ms per iteration (the 100 ms inter-poll delay), the loop returns
within `⌈timeout/100⌉ + 1` iterations: fuel `n + 1` suffices once
`timeoutMs ≤ g i - startTime + 100·n`. -/
theorem waitLoop_terminates_aux {α : Type} (timeoutMs stablePeriodMs startTime : ℤ)
    (g c s : ℕ → ℤ) (poll : ℕ → α) (sig : α → Bool)
    (hadv : ∀ j, g j + 100 ≤ g (j + 1)) :
    ∀ (n i : ℕ) (lc : ℤ) (ls : Option α),
      timeoutMs ≤ g i - startTime + 100 * n →
      ∃ r, waitLoop timeoutMs stablePeriodMs startTime g c s poll sig
             (n + 1) i lc ls = some r := by
  intro n
  induction n with
  | zero =>
    intro i lc ls h
    simp only [waitLoop]
    rw [if_neg (by omega)]
    exact ⟨_, rfl⟩
  | succ n ih =>
    intro i lc ls h
    simp only [waitLoop]
    by_cases hg : g i - startTime < timeoutMs
    · rw [if_pos hg]
      by_cases hq : s i - (if sig (poll i) then c i else lc) ≥ stablePeriodMs
      · rw [if_pos hq]
        exact ⟨_, rfl⟩
      · rw [if_neg hq]
        exact ih (i + 1) _ _ (by have := hadv i; omega)
    · rw [if_neg hg]
      exact ⟨_, rfl⟩

/-- **C9**: `waitForStabilization` always returns when wall time advances
(at least 100 ms between consecutive loop-guard samples, from the 100 ms
poll delay): fuel `⌈timeout/100⌉ + 1` yields a result. At any iteration it
returns `stabilized = true` as soon as the quiet-period check sees
`stablePeriodMs` elapsed since the (just reset, when the poll observed a
significant change) last-change timestamp; and it returns
`stabilized = false`, with the last significant state, as soon as the guard
sees `timeoutMs` elapsed since the start. -/
theorem waitForStabilization_spec {α : Type} (timeoutMs stablePeriodMs startTime : ℤ)
    (g c s : ℕ → ℤ) (poll : ℕ → α) (sig : α → Bool) :
    (∀ fuel : ℕ, (∀ j, g j + 100 ≤ g (j + 1)) →
       timeoutMs ≤ g 0 - startTime + 100 * fuel →
       ∃ r, waitForStabilization (fuel + 1) timeoutMs stablePeriodMs startTime
              g c s poll sig = some r) ∧
    (∀ (fuel i : ℕ) (lc : ℤ) (ls : Option α),
       g i - startTime < timeoutMs →
       stablePeriodMs ≤ s i - (if sig (poll i) then c i else lc) →
       waitLoop timeoutMs stablePeriodMs startTime g c s poll sig
           (fuel + 1) i lc ls =
         some { stabilized := true,
                finalState := if sig (poll i) then some (poll i) else ls }) ∧
    (∀ (fuel i : ℕ) (lc : ℤ) (ls : Option α),
       timeoutMs ≤ g i - startTime →
       waitLoop timeoutMs stablePeriodMs startTime g c s poll sig
           (fuel + 1) i lc ls =
         some { stabilized := false, finalState := ls }) := by
  refine ⟨?_, ?_, ?_⟩
  · intro fuel hadv h
    exact waitLoop_terminates_aux timeoutMs stablePeriodMs startTime g c s poll sig
      hadv fuel 0 startTime none h
  · intro fuel i lc ls hg hq
    simp only [waitLoop]
    rw [if_pos hg]
    rw [if_pos hq]
  · intro fuel i lc ls ht
    simp only [waitLoop]
    rw [if_neg (by omega)]

/-- **C9** (witness): with 100 ms-per-iteration guard samples, a 5000 ms
timeout run with fuel 50 returns; an immediately-quiet run returns
`stabilized = true` at the first poll; a poll entered after the timeout
returns `stabilized = false`. -/
theorem waitForStabilization_spec_witness :
    (∃ r, waitForStabilization 50 5000 500 0 stabG stabC stabS stabPoll stabSig
            = some r) ∧
    waitLoop 5000 500 0 stabG stabC stabS stabPoll stabSig 1 0 0 none =
      some { stabilized := true, finalState := none } ∧
    waitLoop 5000 500 0 stabG stabC stabS stabPoll stabSig 1 49 0 none =
      some { stabilized := false, finalState := none } :=
  ⟨(waitForStabilization_spec 5000 500 0 stabG stabC stabS stabPoll stabSig).1 49
     (fun j => by simp only [stabG]; push_cast; omega) (by decide),
   (waitForStabilization_spec 5000 500 0 stabG stabC stabS stabPoll stabSig).2.1 0 0
     0 none (by decide) (by decide),
   (waitForStabilization_spec 5000 500 0 stabG stabC stabS stabPoll stabSig).2.2 0 49
     0 none (by decide)⟩

/-- Helper: membership in a JS-set insertion. -/
theorem mem_setAdd {s : List ℕ} {x y : ℕ} :
    y ∈ setAdd s x ↔ y ∈ s ∨ y = x := by
  by_cases h : x ∈ s
  · rw [setAdd, if_pos h]
    exact ⟨Or.inl, fun h' => h'.elim id (fun e => e ▸ h)⟩
  · rw [setAdd, if_neg h]
    simp [List.mem_append]

/-- Helper: the execution `executeStep` returns carries the step's id,
instruction and agent, whatever the collaborator did. -/
theorem executeStep_ids
    (agentExec : AgentType → String → AgentContext → Except String AgentResult)
    (clock : ℕ → ℤ) (tick : ℕ) (step : PlanStep) (ctx : AgentContext) :
    (executeStep agentExec clock tick step ctx).1.stepId = step.id ∧
    (executeStep agentExec clock tick step ctx).1.instruction = step.instruction ∧
    (executeStep agentExec clock tick step ctx).1.agent = step.agent := by
  unfold executeStep
  dsimp only
  cases hag : step.agent with
  | planner => exact ⟨rfl, rfl, rfl⟩
  | code => exact ⟨rfl, rfl, rfl⟩
  | vision => exact ⟨rfl, rfl, rfl⟩
  | terminal =>
    cases agentExec AgentType.terminal step.instruction
        (createAgentContext AgentType.terminal ctx) <;> exact ⟨rfl, rfl, rfl⟩
  | desktop =>
    cases agentExec AgentType.desktop step.instruction
        (createAgentContext AgentType.desktop ctx) <;> exact ⟨rfl, rfl, rfl⟩
  | browser =>
    cases agentExec AgentType.browser step.instruction
        (createAgentContext AgentType.browser ctx) <;> exact ⟨rfl, rfl, rfl⟩

/-- Helper: one executed iteration appends exactly one execution, carrying
the step's id and instruction, and adds the step's id to the completed set. -/
theorem execIter_spec
    (agentExec : AgentType → String → AgentContext → Except String AgentResult)
    (clock : ℕ → ℤ) (st : LoopState) (step : PlanStep) :
    ∃ e : AgentExecution,
      (execIter agentExec clock st step).executions = st.executions ++ [e] ∧
      e.stepId = step.id ∧ e.instruction = step.instruction ∧
      (execIter agentExec clock st step).completedSteps =
        setAdd st.completedSteps step.id := by
  obtain ⟨h1, h2, _⟩ := executeStep_ids agentExec clock st.tick step st.context
  exact ⟨(executeStep agentExec clock st.tick step st.context).1, rfl, h1, h2, rfl⟩

/-- **C5**: in `processTask`'s step loop, the executions appended by a pass
over a step list are a single in-order visit of it — their `stepId`s form a
sublist of the steps' ids, so a skipped step is never executed later in the
pass — and each executed step had every declared dependency inside the
completed set at the moment it was reached (the initial completed ids plus
the ids of the steps executed earlier in the pass). -/
theorem execLoop_dependency_gating
    (agentExec : AgentType → String → AgentContext → Except String AgentResult)
    (clock : ℕ → ℤ) (maxSteps maxTokens : ℕ) :
    ∀ (steps : List PlanStep) (st : LoopState),
      ∃ es : List AgentExecution,
        (execLoop agentExec clock maxSteps maxTokens steps st).executions =
          st.executions ++ es ∧
        (es.map AgentExecution.stepId).Sublist (steps.map PlanStep.id) ∧
        (∀ k (hk : k < es.length), ∃ stp, stp ∈ steps ∧
           stp.id = (es.get ⟨k, hk⟩).stepId ∧
           stp.instruction = (es.get ⟨k, hk⟩).instruction ∧
           (∀ d ∈ stp.dependsOn.getD [],
              d ∈ st.completedSteps ∨
                d ∈ (es.take k).map AgentExecution.stepId)) := by
  intro steps
  induction steps with
  | nil =>
    intro st
    refine ⟨[], by simp [execLoop], by simp, ?_⟩
    intro k hk
    exact absurd hk (by simp)
  | cons step rest ih =>
    intro st
    simp only [execLoop]
    by_cases hdeps : (match step.dependsOn with
        | none => true
        | some ds => ds.all (fun d => st.completedSteps.contains d)) = true
    · rw [hdeps]
      simp only [Bool.not_true, Bool.false_eq_true, if_false]
      by_cases hlim : (decide (st.executions.length ≥ maxSteps) ||
          decide (st.totalTokens ≥ maxTokens)) = true
      · rw [if_pos hlim]
        refine ⟨[], by simp, by simp, ?_⟩
        intro k hk
        exact absurd hk (by simp)
      · rw [if_neg (by simpa using hlim)]
        obtain ⟨e, he, hid, hins, hcomp⟩ := execIter_spec agentExec clock st step
        obtain ⟨es', h1, h2, h3⟩ := ih (execIter agentExec clock st step)
        refine ⟨e :: es', ?_, ?_, ?_⟩
        · rw [h1, he, List.append_assoc]
          rfl
        · simpa [hid] using h2.cons₂ step.id
        · intro k hk
          match k with
          | 0 =>
            refine ⟨step, List.mem_cons_self step rest, hid.symm, hins.symm, ?_⟩
            intro d hd
            left
            cases hx : step.dependsOn with
            | none => rw [hx] at hd; exact absurd hd (by simp)
            | some ds =>
              rw [hx] at hd hdeps
              have := List.all_eq_true.mp hdeps d hd
              simpa using this
          | k + 1 =>
            obtain ⟨stp, hmem, hid', hins', hdep'⟩ :=
              h3 k (by simpa using Nat.lt_of_succ_lt_succ hk)
            refine ⟨stp, List.mem_cons_of_mem step hmem, hid', hins', ?_⟩
            intro d hd
            rcases hdep' d hd with hin | hin
            · rw [hcomp] at hin
              rcases mem_setAdd.mp hin with h' | h'
              · exact Or.inl h'
              · right
                rw [List.take_succ_cons, List.map_cons, h', ← hid]
                exact List.mem_cons_self _ _
            · right
              rw [List.take_succ_cons, List.map_cons]
              exact List.mem_cons_of_mem _ hin
    · have hfalse : (match step.dependsOn with
          | none => true
          | some ds => ds.all (fun d => st.completedSteps.contains d)) = false :=
        eq_false_of_ne_true hdeps
      rw [hfalse]
      simp only [Bool.not_false, if_true]
      obtain ⟨es', h1, h2, h3⟩ := ih st
      refine ⟨es', h1, List.sublist_cons_of_sublist step.id h2, ?_⟩
      intro k hk
      obtain ⟨stp, hmem, hid', hins', hdep'⟩ := h3 k hk
      exact ⟨stp, List.mem_cons_of_mem step hmem, hid', hins', hdep'⟩

/-- Helper: the tier cascade yields the prior pair or one of the four
scored tiers (with the fuzzy tier's similarity at or above the threshold). -/
theorem nameTierScore_cases (sl nn nnl : String) (ft : ℚ)
    (base : ℚ × Option MatchType) :
    nameTierScore sl nn nnl ft base = base ∨
    nameTierScore sl nn nnl ft base = (1, some MatchType.exact) ∨
    nameTierScore sl nn nnl ft base = (9/10, some MatchType.contains) ∨
    nameTierScore sl nn nnl ft base = (8/10, some MatchType.contains) ∨
    (∃ sim : ℚ, ft ≤ sim ∧
      nameTierScore sl nn nnl ft base = (sim * (7/10), some MatchType.fuzzy)) := by
  unfold nameTierScore
  split_ifs with h1 h2 h3 h4 h5
  · exact Or.inr (Or.inl rfl)
  · exact Or.inr (Or.inr (Or.inl rfl))
  · exact Or.inr (Or.inr (Or.inr (Or.inl rfl)))
  · exact Or.inr (Or.inr (Or.inr (Or.inr ⟨_, h5, rfl⟩)))
  · exact Or.inl rfl
  · exact Or.inl rfl

/-- Helper: the interactive-role and rectangle boosts only increase a
score. -/
theorem le_applyBoosts (r : String) (rct : Option Rect) (sc : ℚ) :
    sc ≤ applyBoosts r rct sc := by
  have h1 : sc ≤ roleBoost r sc := by
    unfold roleBoost
    split_ifs <;> linarith
  have h2 : roleBoost r sc ≤ rectBoost rct (roleBoost r sc) := by
    unfold rectBoost
    cases rct with
    | none => linarith
    | some rc =>
      show roleBoost r sc ≤
        if rc.width > 0 ∧ rc.height > 0 then roleBoost r sc + 1/20
        else roleBoost r sc
      split_ifs <;> linarith
  exact h1.trans h2

/-- Helper: a freshly pushed match satisfies the tier bound. -/
theorem pushed_matchTier (ft : ℚ) (nodeRole : String) (rct : Option Rect)
    (node : UiElement) (base : ℚ × Option MatchType)
    (hbase : base = (1/2, some MatchType.role) ∨ base = (0, none))
    (sl nn nnl : String) :
    matchTier ft
      { node := node,
        score := min (applyBoosts nodeRole rct
          (nameTierScore sl nn nnl ft base).1) 1,
        matchType := (nameTierScore sl nn nnl ft base).2 } := by
  rcases nameTierScore_cases sl nn nnl ft base with h | h | h | h | ⟨sim, hsim, h⟩ <;>
    rw [h] <;> constructor <;> intro htag
  · -- scored = base, tagged fuzzy: base is role or (0, none), contradiction
    rcases hbase with hb | hb <;> rw [hb] at htag <;> simp at htag
  · -- scored = base, tagged role: base must be the role tier
    rcases hbase with hb | hb <;> rw [hb] at htag ⊢
    · refine le_min (le_trans (by norm_num) (le_applyBoosts _ _ _)) (by norm_num)
    · simp at htag
  · simp at htag
  · simp at htag
  · simp at htag
  · simp at htag
  · simp at htag
  · simp at htag
  · -- the fuzzy tier: similarity × 0.7 with similarity ≥ threshold
    have h1 : (7/10 : ℚ) * ft ≤ sim * (7/10) := by nlinarith
    have h2 : sim * (7/10) ≤ applyBoosts nodeRole rct (sim * (7/10)) :=
      le_applyBoosts _ _ _
    exact min_le_min (h1.trans h2) le_rfl
  · simp at htag

mutual
/-- Helper: every match `searchNode` adds to the accumulator satisfies the
tier bound. -/
theorem searchNode_tier_inv (sl : String) (tr : Option String) (ft : ℚ)
    (mr : ℕ) (node : UiElement) (pp : String) (d : ℕ)
    (acc : List ScoredMatch) (hacc : ∀ m ∈ acc, matchTier ft m) :
    ∀ m ∈ searchNode sl tr ft mr node pp d acc, matchTier ft m := by
  cases node with
  | mk nid nm rl dsc rct sts dp pth ch =>
    intro m hm
    rw [searchNode] at hm
    dsimp only at hm
    split at hm
    · exact hacc m hm
    split at hm
    · exact hacc m hm
    split at hm
    · exact searchNodes_tier_inv sl tr ft mr ch _ _ acc hacc m hm
    · refine searchNodes_tier_inv sl tr ft mr ch _ _ _ ?_ m hm
      intro m2 hm2
      by_cases hb : (tr.isSome && sl == "") = true
      · rw [if_pos hb] at hm2
        split at hm2
        · rcases List.mem_append.mp hm2 with h | h
          · exact hacc m2 h
          · have he := List.mem_singleton.mp h
            subst he
            exact pushed_matchTier ft _ rct _ _ (Or.inl rfl) sl _ _
        · exact hacc m2 hm2
      · rw [if_neg hb] at hm2
        split at hm2
        · rcases List.mem_append.mp hm2 with h | h
          · exact hacc m2 h
          · have he := List.mem_singleton.mp h
            subst he
            exact pushed_matchTier ft _ rct _ _ (Or.inr rfl) sl _ _
        · exact hacc m2 hm2

/-- Helper: `searchNodes` preserves the tier bound of the accumulator. -/
theorem searchNodes_tier_inv (sl : String) (tr : Option String) (ft : ℚ)
    (mr : ℕ) (l : List UiElement) (pp : String) (d : ℕ)
    (acc : List ScoredMatch) (hacc : ∀ m ∈ acc, matchTier ft m) :
    ∀ m ∈ searchNodes sl tr ft mr l pp d acc, matchTier ft m := by
  match l with
  | [] => exact hacc
  | c :: cs =>
    rw [searchNodes]
    exact searchNodes_tier_inv sl tr ft mr cs pp d _
      (searchNode_tier_inv sl tr ft mr c pp d acc hacc)
end

/-- **C2** (counterexample): searching the one-element tree (name `axc`,
role `panel`, no rect) for `abc` with the default threshold `0.6` returns a
single fuzzy-tier match whose score `7/15 ≈ 0.467` (similarity `2/3` times
`0.7`, no boosts) is **below** the supplied `fuzzyThreshold = 0.6`, so the
claim that every returned match outside the exact/prefix/substring tiers
scores at least the threshold is false. -/
theorem searchElements_fuzzy_below_threshold_cex :
    (searchElements axcTree "abc" none 50 (6/10)).matchesArr.map
        (fun m => (m.score, m.matchType)) = [(7/15, some MatchType.fuzzy)] ∧
    (7/15 : ℚ) < 6/10 := by
  constructor
  · with_unfolding_all rfl
  · with_unfolding_all decide

/-- **C2** (amended): every `searchElements` result list is sorted by
non-increasing score, and every returned match's score is at least
`min(0.7 · fuzzyThreshold, 1)` when it qualified via the fuzzy tier (its
pre-boost score is `similarity × 0.7` with `similarity ≥ fuzzyThreshold`)
and at least `0.5` when it qualified via the role tier; exact, prefix and
substring tier matches are exempt as in the original claim. -/
theorem searchElements_sorted_and_tier_spec (uiTree : UiTreeResult)
    (query : String) (role : Option String) (maxResults : ℕ) (ft : ℚ) :
    ((searchElements uiTree query role maxResults ft).matchesArr).Sorted scoreGe ∧
    (∀ m ∈ (searchElements uiTree query role maxResults ft).matchesArr,
       matchTier ft m) := by
  constructor
  · exact List.Pairwise.sublist (List.take_sublist _ _)
      (List.sorted_insertionSort scoreGe _)
  · intro m hm
    have hm1 : m ∈ (searchNodes (query.toLower.trim)
        (role.map (fun r => r.toLower.trim)) ft maxResults
        uiTree.tree "" 0 []).insertionSort scoreGe :=
      (List.take_sublist _ _).subset hm
    have hm2 := (List.perm_insertionSort scoreGe _).subset hm1
    exact searchNodes_tier_inv _ _ ft maxResults uiTree.tree "" 0 []
      (by intro m' hm'; exact absurd hm' (List.not_mem_nil m')) m hm2

/-- **C2** (witness): the amended statement instantiated at the concrete
one-element tree, plus the concrete bound it guarantees there:
`min(0.7 · 0.6, 1) = 0.42 ≤ 7/15`. -/
theorem searchElements_sorted_and_tier_spec_witness :
    ((searchElements axcTree "abc" none 50 (6/10)).matchesArr).Sorted scoreGe ∧
    (∀ m ∈ (searchElements axcTree "abc" none 50 (6/10)).matchesArr,
       matchTier (6/10) m) ∧
    (min ((7/10) * (6/10)) 1 ≤ (7/15 : ℚ)) :=
  ⟨(searchElements_sorted_and_tier_spec axcTree "abc" none 50 (6/10)).1,
   (searchElements_sorted_and_tier_spec axcTree "abc" none 50 (6/10)).2,
   by with_unfolding_all decide⟩

/-- **C5** (witness): the gating statement instantiated at the concrete
two-step dependent plan under the always-throwing collaborator. -/
theorem execLoop_dependency_gating_witness :
    ∃ es : List AgentExecution,
      (execLoop throwingExec zeroClock 10 10000 planAB.steps
          initialStateAB).executions = initialStateAB.executions ++ es ∧
      (es.map AgentExecution.stepId).Sublist (planAB.steps.map PlanStep.id) ∧
      (∀ k (hk : k < es.length), ∃ stp, stp ∈ planAB.steps ∧
         stp.id = (es.get ⟨k, hk⟩).stepId ∧
         stp.instruction = (es.get ⟨k, hk⟩).instruction ∧
         (∀ d ∈ stp.dependsOn.getD [],
            d ∈ initialStateAB.completedSteps ∨
              d ∈ (es.take k).map AgentExecution.stepId)) :=
  execLoop_dependency_gating throwingExec zeroClock 10 10000 planAB.steps
    initialStateAB
